import Mathlib

/- Verification of the examen-dvc pipeline sources (src/data, src/models).

Shallow embedding conventions:
* numpy/pandas float data is modelled as exact rationals; where IEEE special
  values (infinities, NaN) can actually arise in the code paths under study
  (division by a zero entry, means of arrays holding infinities), values live
  in the tagged type `FVal` below, with the IEEE propagation rules made
  explicit;
* file writes (joblib.dump, json.dump, DataFrame.to_csv) are modelled as
  appending an `Artifact` value to the list of persisted artifacts;
* a raised Python exception is modelled as an `Except.error` carrying the
  exception text. -/

/-- IEEE-style extended value: a finite rational, a signed infinity, or NaN.
Models the numpy float results that the evaluation code can produce. -/
inductive FVal where
  | fin : ℚ → FVal
  | posInf : FVal
  | negInf : FVal
  | nan : FVal
  deriving DecidableEq, Repr

/-- Absolute value on extended values (numpy `np.abs`): both infinities map to
the positive infinity, NaN stays NaN. -/
def fabs : FVal → FVal
  | .fin q => .fin |q|
  | .posInf => .posInf
  | .negInf => .posInf
  | .nan => .nan

/-- Addition on extended values with the IEEE rules numpy follows: NaN is
absorbing, opposite infinities give NaN, an infinity absorbs finite values. -/
def fadd : FVal → FVal → FVal
  | .nan, _ => .nan
  | _, .nan => .nan
  | .posInf, .negInf => .nan
  | .negInf, .posInf => .nan
  | .posInf, _ => .posInf
  | _, .posInf => .posInf
  | .negInf, _ => .negInf
  | _, .negInf => .negInf
  | .fin a, .fin b => .fin (a + b)

/-- numpy elementwise division of finite floats: division by zero warns (never
raises) and produces a signed infinity, or NaN for 0/0. -/
def ieeeDiv (a b : ℚ) : FVal :=
  if b = 0 then (if a = 0 then .nan else if 0 < a then .posInf else .negInf)
  else .fin (a / b)

/-- Sum of a list of extended values (the reduction inside `np.mean`). -/
def fsum (l : List FVal) : FVal := l.foldr fadd (.fin 0)

/-- Division of an extended value by a (positive) element count: infinities
and NaN are unchanged, as in IEEE arithmetic. -/
def fdivNat (v : FVal) (n : ℕ) : FVal :=
  match v with
  | .fin q => .fin (q / (n : ℚ))
  | x => x

/-- numpy `np.mean`: sum divided by length; the mean of an empty array is NaN
(numpy warns and returns NaN). -/
def fmean (l : List FVal) : FVal :=
  if l.length = 0 then .nan else fdivNat (fsum l) l.length

/-- Multiplication of an extended value by a positive rational constant
(the `* 100` in the MAPE line): sign of infinities is preserved. -/
def fscale (c : ℚ) (v : FVal) : FVal :=
  match v with
  | .fin q => .fin (c * q)
  | x => x

/-- Strict `<` on extended values as a Python/IEEE float comparison: any
comparison involving NaN is false; -inf is below everything else; +inf is
above everything else. -/
def fltB : FVal → FVal → Bool
  | .nan, _ => false
  | _, .nan => false
  | .negInf, .negInf => false
  | .negInf, _ => true
  | _, .negInf => false
  | .posInf, _ => false
  | .fin _, .posInf => true
  | .fin a, .fin b => decide (a < b)

/-- Mean of a list of rationals (numpy mean of a nonempty float array; the
claims never evaluate it on an empty list). -/
def qmean (l : List ℚ) : ℚ := l.sum / (l.length : ℚ)

/-- `sklearn.metrics.mean_squared_error`: mean of squared differences
(src/src/models/evaluate.py, calculate_metrics). -/
def mean_squared_error (y_true y_pred : List ℚ) : ℚ :=
  qmean (List.zipWith (fun t p => (t - p) ^ 2) y_true y_pred)

/-- `sklearn.metrics.mean_absolute_error`: mean of absolute differences. -/
def mean_absolute_error (y_true y_pred : List ℚ) : ℚ :=
  qmean (List.zipWith (fun t p => |t - p|) y_true y_pred)

/-- `sklearn.metrics.r2_score` as called (no keyword arguments) in
calculate_metrics, modelled from its documented behavior: with fewer than two
samples it warns and returns NaN; otherwise, with the default
force_finite=True, when the total sum of squares about the mean of y_true is
zero the score is 1.0 for a perfect fit and 0.0 otherwise, and in the regular
case it is 1 - rss/tss. It never raises for constant y_true. -/
def r2_score (y_true y_pred : List ℚ) : FVal :=
  if y_true.length < 2 then .nan
  else
    let m := qmean y_true
    let num := (List.zipWith (fun t p => (t - p) ^ 2) y_true y_pred).sum
    let den := (y_true.map (fun t => (t - m) ^ 2)).sum
    if den = 0 then (if num = 0 then .fin 1 else .fin 0)
    else .fin (1 - num / den)

/-- The MAPE line of calculate_metrics, read off the source:
`np.mean(np.abs((y_true - y_pred) / y_true)) * 100`. The rows are NOT
filtered: a zero y_true entry contributes a signed infinity (or NaN for
y_pred equal to y_true there) through IEEE division, and numpy only warns. -/
def mape_fval (y_true y_pred : List ℚ) : FVal :=
  fscale 100 (fmean ((List.zipWith (fun t p => ieeeDiv (t - p) t) y_true y_pred).map fabs))

/-- The MetricsReport produced by calculate_metrics. rmse is the square root
of mse (irrational in general); no claim concerns it and it is determined by
the mse field, so it is not carried separately. -/
structure MetricsReport where
  mse : ℚ
  mae : ℚ
  r2 : FVal
  mape : FVal
  deriving DecidableEq, Repr

/-- calculate_metrics from src/src/models/evaluate.py. -/
def calculate_metrics (y_true y_pred : List ℚ) : MetricsReport :=
  { mse := mean_squared_error y_true y_pred
    mae := mean_absolute_error y_true y_pred
    r2 := r2_score y_true y_pred
    mape := mape_fval y_true y_pred }

/-- Reference definition following the specification text for mape (refinement
comparison only, not translated from the source): mean over rows where
y_true is nonzero of |y_true - y_pred| / |y_true|, times 100. -/
def mape_spec_excluding_zeros (y_true y_pred : List ℚ) : ℚ :=
  let rows := (y_true.zip y_pred).filter (fun r => decide (r.1 ≠ 0))
  100 * ((rows.map (fun r => |r.1 - r.2| / |r.1|)).sum / (rows.length : ℚ))

lemma fsum_map_fin (l : List ℚ) : fsum (l.map FVal.fin) = .fin l.sum := by
  induction l with
  | nil => rfl
  | cons a as ih => simp [fsum, List.foldr] at ih ⊢; rw [ih]; simp [fadd]

lemma mape_rows_fin (y_true y_pred : List ℚ) (h : ∀ t ∈ y_true, t ≠ 0) :
    (List.zipWith (fun t p => ieeeDiv (t - p) t) y_true y_pred).map fabs
      = (List.zipWith (fun t p => |t - p| / |t|) y_true y_pred).map FVal.fin := by
  induction y_true generalizing y_pred with
  | nil => simp
  | cons t ts ih =>
    cases y_pred with
    | nil => simp
    | cons p ps =>
      have ht : t ≠ 0 := h t (by simp)
      have hrest := ih ps (fun x hx => h x (by simp [hx]))
      simp only [List.zipWith, List.map, hrest, List.cons.injEq, and_true]
      simp [ieeeDiv, ht, fabs, abs_div]

lemma zip_map_abs_div (l1 l2 : List ℚ) :
    (l1.zip l2).map (fun r => |r.1 - r.2| / |r.1|)
      = List.zipWith (fun t p => |t - p| / |t|) l1 l2 := by
  induction l1 generalizing l2 with
  | nil => simp
  | cons a as ih =>
    cases l2 with
    | nil => simp
    | cons b bs => simp [List.zip_cons_cons, ih]

/-- C1 (corrected), amended part: when every y_true entry is nonzero, the mape
reported by calculate_metrics equals the mean of |y_true - y_pred| / |y_true|
over all rows times 100, which coincides with the specification's mean over
the rows with nonzero y_true; the computation is total (numpy division only
warns). The exclusion of zero rows claimed by the spec does not happen: see
the counterexample. -/
theorem mape_matches_spec_when_y_true_nonzero (y_true y_pred : List ℚ)
    (hlen : y_true.length = y_pred.length) (hne : y_true ≠ [])
    (hnz : ∀ t ∈ y_true, t ≠ 0) :
    (calculate_metrics y_true y_pred).mape
      = .fin (mape_spec_excluding_zeros y_true y_pred) := by
  have hfilter : (y_true.zip y_pred).filter (fun r => decide (r.1 ≠ 0))
      = y_true.zip y_pred := by
    apply List.filter_eq_self.mpr
    intro r hr
    rcases r with ⟨t, p⟩
    have := (List.of_mem_zip hr).1
    simpa using hnz t this
  have hzlen : (y_true.zip y_pred).length = y_true.length := by
    rw [List.length_zip, hlen, min_self]
  have hwlen : (List.zipWith (fun t p => |t - p| / |t|) y_true y_pred).length
      = y_true.length := by
    rw [List.length_zipWith, hlen, min_self]
  have hpos : y_true.length ≠ 0 := by
    intro h0
    exact hne (List.length_eq_zero.mp h0)
  have hcode : (calculate_metrics y_true y_pred).mape
      = .fin (100 * ((List.zipWith (fun t p => |t - p| / |t|) y_true y_pred).sum
          / (y_true.length : ℚ))) := by
    show mape_fval y_true y_pred = _
    rw [mape_fval, mape_rows_fin y_true y_pred hnz]
    simp only [fmean, List.length_map, hwlen, if_neg hpos, fsum_map_fin, fdivNat, fscale]
  have hspec : mape_spec_excluding_zeros y_true y_pred
      = 100 * ((List.zipWith (fun t p => |t - p| / |t|) y_true y_pred).sum
          / (y_true.length : ℚ)) := by
    rw [mape_spec_excluding_zeros]
    simp only [hfilter, zip_map_abs_div, hzlen]
  rw [hcode, hspec]

/-- C1 witness: a concrete all-nonzero input where the theorem applies. -/
theorem mape_spec_witness :
    (calculate_metrics [1, 2] [3, 2]).mape
      = .fin (mape_spec_excluding_zeros [1, 2] [3, 2]) :=
  mape_matches_spec_when_y_true_nonzero [1, 2] [3, 2] (by decide) (by decide) (by decide)

/-- C1 counterexample: with y_true = [0, 1] and y_pred = [1, 1] the code
returns mape = +infinity (the zero row is NOT excluded), while the mean over
the rows with nonzero y_true prescribed by the spec is 0. -/
theorem mape_zero_row_counterexample :
    (calculate_metrics [0, 1] [1, 1]).mape = FVal.posInf
    ∧ mape_spec_excluding_zeros [0, 1] [1, 1] = 0
    ∧ FVal.posInf ≠ FVal.fin (mape_spec_excluding_zeros [0, 1] [1, 1]) := by
  refine ⟨?_, ?_, ?_⟩
  · show mape_fval [0, 1] [1, 1] = FVal.posInf
    norm_num [mape_fval, List.zipWith, ieeeDiv, fabs, fmean, fsum, List.foldr,
      fadd, fdivNat, fscale]
  · norm_num [mape_spec_excluding_zeros, List.zip, List.zipWith, List.filter]
  · intro h
    rw [show mape_spec_excluding_zeros [0, 1] [1, 1] = 0 from by
      norm_num [mape_spec_excluding_zeros, List.zip, List.zipWith, List.filter]] at h
    exact FVal.noConfusion h

lemma list_sum_const (l : List ℚ) (c : ℚ) (h : ∀ t ∈ l, t = c) :
    l.sum = (l.length : ℚ) * c := by
  induction l with
  | nil => simp
  | cons a as ih =>
    rw [List.sum_cons, List.length_cons, h a (by simp),
      ih (fun t ht => h t (by simp [ht]))]
    push_cast
    ring

lemma qmean_const (l : List ℚ) (c : ℚ) (hne : l.length ≠ 0)
    (h : ∀ t ∈ l, t = c) : qmean l = c := by
  rw [qmean, list_sum_const l c h]
  have : (l.length : ℚ) ≠ 0 := by exact_mod_cast hne
  field_simp

/-- C7 (corrected), amended part: with a constant y_true of at least two
samples, r2_score (as sklearn computes it with default force_finite=True)
returns the finite value 1 for a perfect fit and 0 otherwise: it is never NaN
and no exception is raised. -/
theorem r2_constant_y_true_zero_or_one (y_true y_pred : List ℚ) (c : ℚ)
    (hlen2 : 2 ≤ y_true.length) (hlen : y_true.length = y_pred.length)
    (hconst : ∀ t ∈ y_true, t = c) :
    (calculate_metrics y_true y_pred).r2 = FVal.fin 1
    ∨ (calculate_metrics y_true y_pred).r2 = FVal.fin 0 := by
  have hnotlt : ¬ y_true.length < 2 := not_lt.mpr hlen2
  have hne : y_true.length ≠ 0 := by omega
  have hm : qmean y_true = c := qmean_const y_true c hne hconst
  have hden : (y_true.map (fun t => (t - qmean y_true) ^ 2)).sum = 0 := by
    apply List.sum_eq_zero
    intro x hx
    rcases List.mem_map.mp hx with ⟨t, ht, rfl⟩
    rw [hconst t ht, hm]
    ring
  show r2_score y_true y_pred = FVal.fin 1 ∨ r2_score y_true y_pred = FVal.fin 0
  rw [r2_score, if_neg hnotlt]
  simp only [hden]
  by_cases hnum : (List.zipWith (fun t p => (t - p) ^ 2) y_true y_pred).sum = 0
  · left; simp [hnum]
  · right; simp [hnum]

/-- C7 witness: the theorem applied at the zero-variance example from the
spec, y_true = [5,5,5]. -/
theorem r2_constant_witness :
    (calculate_metrics [5, 5, 5] [1, 2, 3]).r2 = FVal.fin 1
    ∨ (calculate_metrics [5, 5, 5] [1, 2, 3]).r2 = FVal.fin 0 :=
  r2_constant_y_true_zero_or_one [5, 5, 5] [1, 2, 3] 5 (by decide) (by decide) (by decide)

/-- C7 counterexample: on the spec example y_true = [5,5,5] (zero variance)
with imperfect predictions, the code returns r2 = 0.0, not the NaN the claim
requires. -/
theorem r2_constant_counterexample :
    (calculate_metrics [5, 5, 5] [1, 2, 3]).r2 = FVal.fin 0
    ∧ (calculate_metrics [5, 5, 5] [1, 2, 3]).r2 ≠ FVal.nan := by
  have h : (calculate_metrics [5, 5, 5] [1, 2, 3]).r2 = FVal.fin 0 := by
    show r2_score [5, 5, 5] [1, 2, 3] = FVal.fin 0
    norm_num [r2_score, qmean, List.zipWith]
  refine ⟨h, ?_⟩
  rw [h]
  intro hcontra
  exact FVal.noConfusion hcontra

/-- A pandas DataFrame of float columns: ordered (column name, values) pairs. -/
abbrev PandasDF := List (String × List ℚ)

/-- pandas column assignment `df[name] = vals`: when a column with that name
exists it is overwritten in place (every occurrence, keeping its position);
otherwise a new column is appended at the end. -/
def dfSetCol (df : PandasDF) (n : String) (vals : List ℚ) : PandasDF :=
  if df.any (fun c => decide (c.1 = n)) then
    df.map (fun c => if c.1 = n then (n, vals) else c)
  else df ++ [(n, vals)]

/-- save_predictions from src/src/models/evaluate.py: copy X_test, then
assign the columns y_true (= y_test values), y_pred, and
error (= y_test.values - y_pred, numpy elementwise subtraction). -/
def save_predictions (X_test : PandasDF) (y_test y_pred : List ℚ) : PandasDF :=
  dfSetCol (dfSetCol (dfSetCol X_test "y_true" y_test) "y_pred" y_pred) "error"
    (List.zipWith (fun a b => a - b) y_test y_pred)

/-- The numeric/categorical/other dtypes a pandas column can carry; `other`
stands for any dtype outside the four the classifier inspects. -/
inductive Dtype where
  | int64 | float64 | object | category | other
  deriving DecidableEq, Repr

/-- A pandas column schema entry: name plus dtype. -/
structure PColumn where
  name : String
  dtype : Dtype
  deriving DecidableEq, Repr

/-- `X.select_dtypes(include=kinds).columns.tolist()`: the names of the
columns whose dtype is in the requested kinds, in original column order. -/
def select_dtypes (kinds : List Dtype) (X : List PColumn) : List String :=
  (X.filter (fun c => decide (c.dtype ∈ kinds))).map PColumn.name

/-- identify_column_types from src/src/models/training.py: numeric columns are
the int64/float64 ones, categorical the object/category ones. -/
def identify_column_types (X : List PColumn) : List String × List String :=
  (select_dtypes [.int64, .float64] X, select_dtypes [.object, .category] X)

lemma mem_select_dtypes {kinds : List Dtype} {X : List PColumn} {n : String} :
    n ∈ select_dtypes kinds X ↔ ∃ c ∈ X, c.dtype ∈ kinds ∧ c.name = n := by
  simp only [select_dtypes, List.mem_map, List.mem_filter, decide_eq_true_eq]
  constructor
  · rintro ⟨c, ⟨hc, hk⟩, hn⟩
    exact ⟨c, hc, hk, hn⟩
  · rintro ⟨c, hc, hk, hn⟩
    exact ⟨c, ⟨hc, hk⟩, hn⟩

lemma dfSetCol_fresh (df : PandasDF) (n : String) (vals : List ℚ)
    (h : ∀ c ∈ df, c.1 ≠ n) : dfSetCol df n vals = df ++ [(n, vals)] := by
  have hfalse : (df.any (fun c => decide (c.1 = n))) = false := by
    rw [List.any_eq_false]
    intro c hc
    simpa using h c hc
  rw [dfSetCol, hfalse]
  simp

lemma zipWith_sub_get (y p : List ℚ) (i : ℕ) (hy : i < y.length) (hp : i < p.length) :
    (List.zipWith (fun a b => a - b) y p).get
        ⟨i, by rw [List.length_zipWith]; exact lt_min hy hp⟩
      = y.get ⟨i, hy⟩ - p.get ⟨i, hp⟩ := by
  induction y generalizing p i with
  | nil => exact absurd hy (Nat.not_lt_zero i)
  | cons a as ih =>
    cases p with
    | nil => exact absurd hp (Nat.not_lt_zero i)
    | cons b bs =>
      cases i with
      | zero => rfl
      | succ k => exact ih bs k (Nat.lt_of_succ_lt_succ hy) (Nat.lt_of_succ_lt_succ hp)

/-- C10 (corrected), amended part: provided X_test has no column already named
y_true, y_pred, or error, the predictions table is X_test unchanged followed
by exactly the three appended columns y_true, y_pred, and error, and the
error column is the rowwise difference y_true - y_pred. (Without the proviso
a pre-existing column with one of those names is overwritten in place: see
the counterexample.) -/
theorem save_predictions_appends_columns (X_test : PandasDF) (y_test y_pred : List ℚ)
    (h1 : ∀ c ∈ X_test, c.1 ≠ "y_true") (h2 : ∀ c ∈ X_test, c.1 ≠ "y_pred")
    (h3 : ∀ c ∈ X_test, c.1 ≠ "error") :
    save_predictions X_test y_test y_pred
      = X_test ++ [("y_true", y_test), ("y_pred", y_pred),
          ("error", List.zipWith (fun a b => a - b) y_test y_pred)]
    ∧ ∀ (i : ℕ) (hy : i < y_test.length) (hp : i < y_pred.length),
        (List.zipWith (fun a b => a - b) y_test y_pred).get
            ⟨i, by rw [List.length_zipWith]; exact lt_min hy hp⟩
          = y_test.get ⟨i, hy⟩ - y_pred.get ⟨i, hp⟩ := by
  constructor
  · rw [save_predictions, dfSetCol_fresh X_test "y_true" y_test h1]
    rw [dfSetCol_fresh _ "y_pred" y_pred ?hp]
    case hp =>
      intro c hc
      rcases List.mem_append.mp hc with hin | hin
      · exact h2 c hin
      · simp at hin
        simp [hin]
    rw [dfSetCol_fresh _ "error" _ ?he]
    case he =>
      intro c hc
      rcases List.mem_append.mp hc with hin | hin
      · rcases List.mem_append.mp hin with hin2 | hin2
        · exact h3 c hin2
        · simp at hin2
          simp [hin2]
      · simp at hin
        simp [hin]
    simp
  · intro i hy hp
    exact zipWith_sub_get y_test y_pred i hy hp

/-- C10 witness: the appended-columns equation at a concrete table with one
feature column. -/
theorem save_predictions_witness :
    save_predictions [("f1", [1, 2])] [3, 4] [5, 6]
      = [("f1", [1, 2]), ("y_true", [3, 4]), ("y_pred", [5, 6]), ("error", [-2, -2])] := by
  have h := (save_predictions_appends_columns [("f1", [1, 2])] [3, 4] [5, 6]
    (by decide) (by decide) (by decide)).1
  rw [h]
  norm_num [List.zipWith]

/-- C10 counterexample: when X_test itself has a column named y_true, its
values are overwritten (9 becomes 5) instead of being kept unchanged with
three appended columns, so the claim as stated fails. -/
theorem save_predictions_overwrite_counterexample :
    save_predictions [("y_true", [9])] [5] [4]
      = [("y_true", [5]), ("y_pred", [4]), ("error", [1])]
    ∧ (save_predictions [("y_true", [9])] [5] [4]).head? ≠ some ("y_true", [9]) := by
  constructor
  · simp +decide [save_predictions, dfSetCol, List.zipWith]
    norm_num
  · rw [show save_predictions [("y_true", [9])] [5] [4]
        = [("y_true", [5]), ("y_pred", [4]), ("error", [1])] from by
      simp +decide [save_predictions, dfSetCol, List.zipWith]
      norm_num]
    simp

/-- C8 (confirmed): for a feature table with pairwise-distinct column names,
identify_column_types returns disjoint numeric and categorical name sets,
each a subset of the table's columns in the table's original column order,
and calling it twice gives equal results. -/
theorem identify_column_types_partition (X : List PColumn)
    (h : (X.map PColumn.name).Nodup) :
    (∀ n, n ∈ (identify_column_types X).1 → n ∉ (identify_column_types X).2)
    ∧ (∀ n, n ∈ (identify_column_types X).1 → n ∈ X.map PColumn.name)
    ∧ (∀ n, n ∈ (identify_column_types X).2 → n ∈ X.map PColumn.name)
    ∧ (identify_column_types X).1.Sublist (X.map PColumn.name)
    ∧ (identify_column_types X).2.Sublist (X.map PColumn.name)
    ∧ identify_column_types X = identify_column_types X := by
  refine ⟨?_, ?_, ?_, ?_, ?_, rfl⟩
  · intro n h1 h2
    rcases mem_select_dtypes.mp h1 with ⟨c1, hc1, hk1, hn1⟩
    rcases mem_select_dtypes.mp h2 with ⟨c2, hc2, hk2, hn2⟩
    have heq : c1 = c2 :=
      List.inj_on_of_nodup_map h hc1 hc2 (by rw [hn1, hn2])
    rw [heq] at hk1
    simp only [List.mem_cons, List.mem_singleton, List.not_mem_nil, or_false] at hk1 hk2
    rcases hk1 with hd1 | hd1 <;> rcases hk2 with hd2 | hd2 <;>
      rw [hd1] at hd2 <;> exact Dtype.noConfusion hd2
  · intro n hn
    rcases mem_select_dtypes.mp hn with ⟨c, hc, _, hname⟩
    exact hname ▸ List.mem_map_of_mem PColumn.name hc
  · intro n hn
    rcases mem_select_dtypes.mp hn with ⟨c, hc, _, hname⟩
    exact hname ▸ List.mem_map_of_mem PColumn.name hc
  · exact (List.filter_sublist X).map PColumn.name
  · exact (List.filter_sublist X).map PColumn.name

/-- C8 witness: on a concrete two-column table, the numeric set contains
column a and the categorical set provably does not. -/
theorem identify_column_types_witness :
    "a" ∈ (identify_column_types [⟨"a", .int64⟩, ⟨"b", .object⟩]).1
    ∧ "a" ∉ (identify_column_types [⟨"a", .int64⟩, ⟨"b", .object⟩]).2 :=
  ⟨by decide,
    (identify_column_types_partition [⟨"a", .int64⟩, ⟨"b", .object⟩] (by decide)).1
      "a" (by decide)⟩

/-- An estimator family tag: the two regressors the scripts construct. -/
inductive SkEstimator where
  | randomForest | gradientBoosting
  deriving DecidableEq, Repr

/-- One entry of the params.yaml models list: {name, params grid}. -/
structure ModelConfig where
  name : String
  params : List (String × List ℚ)
  deriving DecidableEq, Repr

/-- One entry of the list built by get_model_configs in training.py:
{name, estimator, params}. -/
structure EstimatorConfig where
  name : String
  estimator : SkEstimator
  params : List (String × List ℚ)
  deriving DecidableEq, Repr

/-- get_model from src/src/models/grid_search.py: returns the estimator for
the two registered names and raises ValueError otherwise. -/
def get_model (name : String) : Except String SkEstimator :=
  if name = "RandomForest" then .ok .randomForest
  else if name = "GradientBoosting" then .ok .gradientBoosting
  else .error ("Unknown model: " ++ name)

/-- get_model_configs from src/src/models/training.py: keeps, in order, the
configured models whose name is in the two-entry model_mapping; a name not in
the mapping is skipped without any error. -/
def get_model_configs : List ModelConfig → List EstimatorConfig
  | [] => []
  | m :: rest =>
    if m.name = "RandomForest" then
      ⟨m.name, .randomForest, m.params⟩ :: get_model_configs rest
    else if m.name = "GradientBoosting" then
      ⟨m.name, .gradientBoosting, m.params⟩ :: get_model_configs rest
    else get_model_configs rest

/-- The outcome a GridSearchCV run reports for one family: best_score_ and
best_params_. The cross-validation internals live in sklearn, outside this
repository, so they are abstracted as an oracle `String → GSOutcome` giving
each family name its search outcome (scores are finite floats, modelled as
rationals). -/
structure GSOutcome where
  best_score : ℚ
  best_params : List (String × ℚ)
  deriving DecidableEq, Repr

/-- A fitted sklearn Pipeline: which family and hyperparameters it was built
with, and the exact data it was fit on. -/
structure FittedPipeline where
  family : String
  params : List (String × ℚ)
  fitX : List (List ℚ)
  fitY : List ℚ
  deriving DecidableEq, Repr

/-- One GridSearchCV run over a family, modelled from sklearn's documented
contract for the arguments the scripts pass (refit is left at its default
True): best_estimator_ is the pipeline with the best parameters refit on the
full data passed to fit. -/
def gridSearchFit (cv : String → GSOutcome) (family : String)
    (X : List (List ℚ)) (y : List ℚ) : GSOutcome × FittedPipeline :=
  let o := cv family
  (o, ⟨family, o.best_params, X, y⟩)

/-- The best_results dict built inside train_with_gridsearch (training.py):
model_name, best_score stored as float(-best_score), best_params with the
regressor prefix stripped (the prefix added when building the grid and the
strip cancel, so the oracle works with unprefixed parameter names). -/
structure BestResults where
  model_name : String
  best_score : ℚ
  best_params : List (String × ℚ)
  deriving DecidableEq, Repr

/-- The loop state of train_with_gridsearch: best_score (a float, initially
-inf), best_pipeline (initially None), best_results (initially the empty
dict, modelled as none). -/
structure TrainState where
  best_score : FVal
  best_pipeline : Option FittedPipeline
  best_results : Option BestResults
  deriving DecidableEq, Repr

/-- One iteration of the train_with_gridsearch loop: run GridSearchCV for the
family and replace the running best exactly when
grid_search.best_score_ > best_score (strict Python float comparison). -/
def trainStep (cv : String → GSOutcome) (X : List (List ℚ)) (y : List ℚ)
    (st : TrainState) (config : EstimatorConfig) : TrainState :=
  let r := gridSearchFit cv config.name X y
  if fltB st.best_score (.fin r.1.best_score) then
    { best_score := .fin r.1.best_score
      best_pipeline := some r.2
      best_results := some ⟨config.name, -r.1.best_score, r.1.best_params⟩ }
  else st

/-- train_with_gridsearch from src/src/models/training.py: fold the loop over
the model configs in declaration order, starting from
(float("-inf"), None, partial empty dict). -/
def train_with_gridsearch (cv : String → GSOutcome) (X : List (List ℚ))
    (y : List ℚ) (model_configs : List EstimatorConfig) : TrainState :=
  model_configs.foldl (trainStep cv X y) ⟨.negInf, none, none⟩

/-- The best_res dict grid_search.py dumps: model_name and best_params only
(no fitted estimator). -/
structure GSBestRes where
  model_name : String
  best_params : List (String × ℚ)
  deriving DecidableEq, Repr

/-- A persisted file, by content: training.py writes best_pipeline.pkl (a
pickled Pipeline object, possibly None) and best_params.json; grid_search.py
writes best_params.pkl holding the best_res dict (possibly None). -/
inductive Artifact where
  | pipelineFile : Option FittedPipeline → Artifact
  | resultsFile : Option BestResults → Artifact
  | paramsFile : Option GSBestRes → Artifact
  deriving DecidableEq, Repr

/-- Returns true exactly on a persisted pipeline artifact. -/
def isPipelineArtifact : Artifact → Bool
  | .pipelineFile _ => true
  | _ => false

/-- save_pipeline from training.py: joblib.dump the pipeline object (even if
it is None) then json.dump the results dict; both writes always happen. -/
def save_pipeline (p : Option FittedPipeline) (r : Option BestResults) :
    List Artifact :=
  [.pipelineFile p, .resultsFile r]

/-- main of training.py after loading params and data: build the configs,
train, save, then log results["model_name"], which raises KeyError when the
results dict is still empty. Returns the run outcome and the artifacts
persisted before the run ended. -/
def trainingMain (cv : String → GSOutcome) (X : List (List ℚ)) (y : List ℚ)
    (models : List ModelConfig) : Except String Unit × List Artifact :=
  let s := train_with_gridsearch cv X y (get_model_configs models)
  let written := save_pipeline s.best_pipeline s.best_results
  match s.best_results with
  | some _ => (.ok (), written)
  | none => (.error "KeyError: model_name", written)

/-- The loop of grid_search.py main: get_model raises ValueError on an
unregistered name (aborting the whole run before anything is written);
otherwise the running best (initialized to -inf/None) is replaced exactly
when grid.best_score_ is strictly greater. -/
def gsLoop (cv : String → GSOutcome) :
    List ModelConfig → FVal × Option GSBestRes → Except String (FVal × Option GSBestRes)
  | [], acc => .ok acc
  | m :: rest, acc =>
    match get_model m.name with
    | .error e => .error e
    | .ok _ =>
      let o := cv m.name
      gsLoop cv rest
        (if fltB acc.1 (.fin o.best_score)
          then (.fin o.best_score, some ⟨m.name, o.best_params⟩) else acc)

/-- main of grid_search.py: run the loop, then joblib.dump best_res (even if
it is None), then log best_res["model_name"], which raises TypeError when
best_res is None. Only the best_params.pkl dict is ever persisted; no fitted
pipeline is written by this script. -/
def gridSearchMain (cv : String → GSOutcome) (models : List ModelConfig) :
    Except String Unit × List Artifact :=
  match gsLoop cv models (.negInf, none) with
  | .error e => (.error e, [])
  | .ok (_, best) =>
    match best with
    | some _ => (.ok (), [.paramsFile best])
    | none => (.error "TypeError: NoneType is not subscriptable", [.paramsFile best])

lemma fltB_fin_fin (a b : ℚ) : fltB (.fin a) (.fin b) = decide (a < b) := rfl

lemma fltB_negInf_fin (b : ℚ) : fltB .negInf (.fin b) = true := rfl

lemma foldl_trainStep_no_update (cv : String → GSOutcome) (X : List (List ℚ))
    (y : List ℚ) (q : ℚ) (l : List EstimatorConfig) :
    ∀ st : TrainState, st.best_score = .fin q →
      (∀ c ∈ l, (cv c.name).best_score ≤ q) →
      l.foldl (trainStep cv X y) st = st := by
  induction l with
  | nil => intro st _ _; rfl
  | cons c rest ih =>
    intro st hs hb
    have hle : (cv c.name).best_score ≤ q := hb c (by simp)
    have hstep : trainStep cv X y st c = st := by
      rw [trainStep]
      simp only [gridSearchFit, hs, fltB_fin_fin]
      rw [if_neg]
      simp [not_lt.mpr hle]
    rw [List.foldl_cons, hstep]
    exact ih st hs (fun d hd => hb d (by simp [hd]))

lemma foldl_trainStep_stays_below (cv : String → GSOutcome) (X : List (List ℚ))
    (y : List ℚ) (s : ℚ) (l : List EstimatorConfig) :
    ∀ st : TrainState,
      (st.best_score = .negInf ∨ ∃ q : ℚ, st.best_score = .fin q ∧ q < s) →
      (∀ c ∈ l, (cv c.name).best_score < s) →
      ((l.foldl (trainStep cv X y) st).best_score = .negInf
        ∨ ∃ q : ℚ, (l.foldl (trainStep cv X y) st).best_score = .fin q ∧ q < s) := by
  induction l with
  | nil => intro st h _; exact h
  | cons c rest ih =>
    intro st h hb
    rw [List.foldl_cons]
    apply ih
    · by_cases hcond : fltB st.best_score (.fin ((cv c.name).best_score)) = true
      · right
        refine ⟨(cv c.name).best_score, ?_, hb c (by simp)⟩
        rw [trainStep]
        simp only [gridSearchFit, hcond, if_pos]
      · have : trainStep cv X y st c = st := by
          rw [trainStep]
          simp only [gridSearchFit]
          rw [if_neg hcond]
        rw [this]
        exact h
    · exact fun d hd => hb d (by simp [hd])

/-- C2 (confirmed): the selector keeps a running best initialized to -inf and
replaces it only on a strictly greater score, processing families in
declaration order; hence with an earlier family a and a later family b whose
best cross-validated scores tie at s (all families before a scoring strictly
below s and no other family exceeding s), the state returned by
train_with_gridsearch names family a: the first-declared family wins. -/
theorem selector_tie_break_first_declared (cv : String → GSOutcome)
    (X : List (List ℚ)) (y : List ℚ)
    (xs ys zs : List EstimatorConfig) (a b : EstimatorConfig) (s : ℚ)
    (hxs : ∀ c ∈ xs, (cv c.name).best_score < s)
    (ha : (cv a.name).best_score = s)
    (hys : ∀ c ∈ ys, (cv c.name).best_score ≤ s)
    (hb : (cv b.name).best_score = s)
    (hzs : ∀ c ∈ zs, (cv c.name).best_score ≤ s) :
    train_with_gridsearch cv X y (xs ++ a :: ys ++ b :: zs)
      = ⟨.fin s, some ⟨a.name, (cv a.name).best_params, X, y⟩,
          some ⟨a.name, -s, (cv a.name).best_params⟩⟩ := by
  have hbelow := foldl_trainStep_stays_below cv X y s xs ⟨.negInf, none, none⟩
    (Or.inl rfl) hxs
  have hstep : trainStep cv X y (xs.foldl (trainStep cv X y) ⟨.negInf, none, none⟩) a
      = ⟨.fin s, some ⟨a.name, (cv a.name).best_params, X, y⟩,
          some ⟨a.name, -s, (cv a.name).best_params⟩⟩ := by
    rcases hbelow with hneg | ⟨q, hq, hlt⟩
    · rw [trainStep]
      simp [gridSearchFit, hneg, fltB_negInf_fin, ha]
    · rw [trainStep]
      simp [gridSearchFit, hq, fltB_fin_fin, ha, hlt]
  have hbz : ∀ c ∈ b :: zs, (cv c.name).best_score ≤ s := by
    intro c hc
    rcases List.mem_cons.mp hc with hcb | hcz
    · rw [hcb, hb]
    · exact hzs c hcz
  have e2 : (xs ++ a :: ys).foldl (trainStep cv X y) ⟨.negInf, none, none⟩
      = ⟨.fin s, some ⟨a.name, (cv a.name).best_params, X, y⟩,
          some ⟨a.name, -s, (cv a.name).best_params⟩⟩ := by
    rw [List.foldl_append, List.foldl_cons, hstep,
      foldl_trainStep_no_update cv X y s ys _ rfl hys]
  rw [train_with_gridsearch, List.foldl_append, e2,
    foldl_trainStep_no_update cv X y s (b :: zs) _ rfl hbz]

/-- C2 witness: two families A then B with forced equal scores 1; the
returned state names A, the first-declared family. -/
theorem selector_tie_break_witness :
    train_with_gridsearch (fun _ => ⟨1, []⟩) [] []
        [⟨"A", .randomForest, []⟩, ⟨"B", .gradientBoosting, []⟩]
      = ⟨.fin 1, some ⟨"A", [], [], []⟩, some ⟨"A", -1, []⟩⟩ :=
  selector_tie_break_first_declared (fun _ => ⟨1, []⟩) [] [] [] [] []
    ⟨"A", .randomForest, []⟩ ⟨"B", .gradientBoosting, []⟩ 1
    (by simp) rfl (by simp) rfl (by simp)

/-- Invariant of the train_with_gridsearch loop state: whenever a pipeline is
held, it was fit on exactly the data passed to the run, and the results dict
names the same family and hyperparameters. -/
def PipelineInv (X : List (List ℚ)) (y : List ℚ) (st : TrainState) : Prop :=
  ∀ p : FittedPipeline, st.best_pipeline = some p →
    p.fitX = X ∧ p.fitY = y ∧
      st.best_results.map (fun r => (r.model_name, r.best_params))
        = some (p.family, p.params)

lemma foldl_trainStep_pipelineInv (cv : String → GSOutcome) (X : List (List ℚ))
    (y : List ℚ) (l : List EstimatorConfig) :
    ∀ st : TrainState, PipelineInv X y st →
      PipelineInv X y (l.foldl (trainStep cv X y) st) := by
  induction l with
  | nil => intro st h; exact h
  | cons c rest ih =>
    intro st h
    rw [List.foldl_cons]
    apply ih
    by_cases hcond : fltB st.best_score (.fin ((cv c.name).best_score)) = true
    · rw [trainStep]
      simp only [gridSearchFit, hcond, if_pos]
      intro p hp
      rw [Option.some.injEq] at hp
      rw [← hp]
      exact ⟨rfl, rfl, rfl⟩
    · have : trainStep cv X y st c = st := by
        rw [trainStep]
        simp only [gridSearchFit]
        rw [if_neg hcond]
      rw [this]
      exact h

/-- C5 (corrected), amended part for training.py: any pipeline returned by
train_with_gridsearch (hence the one its main persists) was fit on the
entire training set passed to the run, with the winning family and winning
hyperparameters recorded in best_results. The full-data fit comes from
GridSearchCV refitting best_estimator_ on the whole data it was given
(refit left at its default True). The grid_search.py variant, in contrast,
persists no fitted pipeline at all: see the counterexample. -/
theorem persisted_pipeline_fit_on_full_data (cv : String → GSOutcome)
    (X : List (List ℚ)) (y : List ℚ) (configs : List EstimatorConfig)
    (p : FittedPipeline)
    (h : (train_with_gridsearch cv X y configs).best_pipeline = some p) :
    p.fitX = X ∧ p.fitY = y ∧
      (train_with_gridsearch cv X y configs).best_results.map
          (fun r => (r.model_name, r.best_params)) = some (p.family, p.params) := by
  have hinv : PipelineInv X y (train_with_gridsearch cv X y configs) := by
    apply foldl_trainStep_pipelineInv
    intro q hq
    exact absurd hq (by simp)
  exact hinv p h

/-- C5 witness: a concrete run with one family; the returned pipeline carries
the full training data and the winning hyperparameters. -/
theorem persisted_pipeline_witness :
    (⟨"RandomForest", [("max_depth", 3)], [[1]], [2]⟩ : FittedPipeline).fitX = [[1]]
    ∧ (⟨"RandomForest", [("max_depth", 3)], [[1]], [2]⟩ : FittedPipeline).fitY = [2]
    ∧ (train_with_gridsearch (fun _ => ⟨1, [("max_depth", 3)]⟩) [[1]] [2]
        [⟨"RandomForest", .randomForest, []⟩]).best_results.map
        (fun r => (r.model_name, r.best_params))
      = some ("RandomForest", [("max_depth", 3)]) :=
  persisted_pipeline_fit_on_full_data (fun _ => ⟨1, [("max_depth", 3)]⟩) [[1]] [2]
    [⟨"RandomForest", .randomForest, []⟩]
    ⟨"RandomForest", [("max_depth", 3)], [[1]], [2]⟩ rfl

/-- C5 counterexample: a successful grid_search.py run persists only the
best_params dict (model name and hyperparameters); its artifact list contains
no fitted-pipeline file, so the claim that every selection run persists a
full-data refit FittedPipelineArtifact fails on this variant. -/
theorem grid_search_script_persists_no_pipeline :
    (gridSearchMain (fun _ => ⟨1, [("n_estimators", 100)]⟩) [⟨"RandomForest", []⟩]).1
      = .ok ()
    ∧ (gridSearchMain (fun _ => ⟨1, [("n_estimators", 100)]⟩) [⟨"RandomForest", []⟩]).2
      = [Artifact.paramsFile (some ⟨"RandomForest", [("n_estimators", 100)]⟩)]
    ∧ ((gridSearchMain (fun _ => ⟨1, [("n_estimators", 100)]⟩)
        [⟨"RandomForest", []⟩]).2.filter isPipelineArtifact) = [] :=
  ⟨rfl, rfl, rfl⟩

/-- C4 (corrected), amended part: get_model (grid_search.py) fails immediately
with ValueError for a name outside the registry and the whole run aborts with
nothing persisted, while get_model_configs (training.py) silently drops an
unregistered name from the candidate configurations without any error. -/
theorem unknown_family_behavior (n : String) (g : List (String × List ℚ))
    (rest : List ModelConfig) (cv : String → GSOutcome)
    (h1 : n ≠ "RandomForest") (h2 : n ≠ "GradientBoosting") :
    get_model n = .error ("Unknown model: " ++ n)
    ∧ get_model_configs (⟨n, g⟩ :: rest) = get_model_configs rest
    ∧ gridSearchMain cv (⟨n, g⟩ :: rest) = (.error ("Unknown model: " ++ n), []) := by
  have hm : get_model n = .error ("Unknown model: " ++ n) := by
    rw [get_model, if_neg h1, if_neg h2]
  refine ⟨hm, ?_, ?_⟩
  · rw [get_model_configs]
    simp only [if_neg h1, if_neg h2]
  · rw [gridSearchMain, gsLoop, hm]

/-- C4 witness: the concrete unregistered name Mystery: resolution errors in
grid_search.py (and the run writes nothing), while training.py's config list
silently coincides with the one built without Mystery. -/
theorem unknown_family_witness :
    get_model "Mystery" = .error ("Unknown model: " ++ "Mystery")
    ∧ get_model_configs [⟨"Mystery", []⟩, ⟨"RandomForest", []⟩]
        = get_model_configs [⟨"RandomForest", []⟩]
    ∧ gridSearchMain (fun _ => ⟨1, []⟩) [⟨"Mystery", []⟩, ⟨"RandomForest", []⟩]
        = (.error ("Unknown model: " ++ "Mystery"), []) :=
  unknown_family_behavior "Mystery" [] [⟨"RandomForest", []⟩] (fun _ => ⟨1, []⟩)
    (by decide) (by decide)

/-- C4 counterexample: a config list holding only the unregistered name
Mystery resolves to an empty candidate set with no error raised anywhere:
the name is silently skipped, contradicting the claim. -/
theorem unknown_family_silently_skipped :
    get_model_configs [⟨"Mystery", [("n_estimators", [100])]⟩] = [] := rfl

/-- C3 (code_bug): with a params models list whose only entry is the
unregistered name Mystery, get_model_configs returns no candidates,
train_with_gridsearch returns (None, empty dict), and training.py main
persists a pickled None pipeline and an empty results file BEFORE failing
with KeyError on results["model_name"]: a fatal run does leave a partial
artifact, and a None pipeline is written. -/
theorem training_main_persists_none_pipeline :
    trainingMain (fun _ => ⟨1, []⟩) [[1]] [2] [⟨"Mystery", []⟩]
      = (.error "KeyError: model_name",
          [Artifact.pipelineFile none, Artifact.resultsFile none]) := rfl

/-- C6 (corrected), amended part: with an empty families list the selector
does not fail with any NoCandidateFamilies error: train_with_gridsearch
returns its initial (-inf, None, empty) state, training.py main persists the
None pipeline and empty results and only then raises KeyError while logging,
and grid_search.py main persists a None params file and then raises
TypeError. -/
theorem empty_families_returns_none_and_persists (cv : String → GSOutcome)
    (X : List (List ℚ)) (y : List ℚ) :
    train_with_gridsearch cv X y [] = ⟨.negInf, none, none⟩
    ∧ trainingMain cv X y []
      = (.error "KeyError: model_name",
          [Artifact.pipelineFile none, Artifact.resultsFile none])
    ∧ gridSearchMain cv []
      = (.error "TypeError: NoneType is not subscriptable",
          [Artifact.paramsFile none]) :=
  ⟨rfl, rfl, rfl⟩

/-- C6 counterexample: a concrete run on an empty families list proceeds to
persist artifacts (a None pipeline and an empty results dict) instead of
failing with NoCandidateFamilies before persisting anything. -/
theorem training_main_empty_families_counterexample :
    trainingMain (fun _ => ⟨0, []⟩) [] [] []
      = (.error "KeyError: model_name",
          [Artifact.pipelineFile none, Artifact.resultsFile none])
    ∧ (trainingMain (fun _ => ⟨0, []⟩) [] [] []).2 ≠ [] :=
  ⟨rfl, by
    rw [show (trainingMain (fun _ => ⟨0, []⟩) [] [] []).2
        = [Artifact.pipelineFile none, Artifact.resultsFile none] from rfl]
    simp⟩
